import Mathlib

/-!
Shallow embedding of `meal_planner_email.py` (weekly meal-planner agent).

The program scrapes a listing page for recipe links, samples five recipes,
parses each recipe page (JSON-LD block with HTML fallbacks), deduplicates
the combined ingredient lists into a shopping list, composes a plain-text
e-mail and sends it on a weekly schedule.

Modelling conventions:
* Python strings are Lean `String`s; `str.startswith`, `str.strip`,
  `str.lower` and the substring test `in` are modelled over `String.data`
  (the code-point list), matching Python's code-point semantics.
* HTML pages are modelled as the projections BeautifulSoup extracts from
  them: the hrefs of anchors, the title text, the `js_recipe_schema`
  script tag (already JSON-decoded, since `json.loads` is library code),
  the `h2`..`h5` headings each with the `<ul>` that `find_next("ul")`
  would return, and the texts of all `<li>` elements in document order.
* Python exceptions are modelled with `Except`; an `.error` result of a
  function models that the corresponding Python call raises.
* `random.sample(urls, 5)` is modelled by an oracle list of draws
  (`picks`): each draw removes the chosen element from the pool, i.e.
  sampling without replacement.  Network fetches of recipe pages are an
  oracle `results` function mapping each URL to the outcome of
  fetching-and-parsing it.
-/

namespace MealPlanner

/-- Python exception values that the script can raise, distinguished by
their Python class and message. -/
inductive PyErr where
  | runtimeError (msg : String)
  | attributeError (msg : String)
  | typeError (msg : String)
  | fetchError (msg : String)
deriving DecidableEq

/-- Message text carried by an exception (Python `str(exc)`). -/
def PyErr.msg : PyErr → String
  | .runtimeError m => m
  | .attributeError m => m
  | .typeError m => m
  | .fetchError m => m

/-- JSON values, as produced by `json.loads`. -/
inductive Json where
  | null
  | bool (b : Bool)
  | num (n : Int)
  | str (s : String)
  | arr (elems : List Json)
  | obj (fields : List (String × Json))

/-- Python truthiness of a JSON-decoded value (`if not ingredients`). -/
def Json.truthy : Json → Bool
  | .null => false
  | .bool b => b
  | .num n => n != 0
  | .str s => s != ""
  | .arr elems => !elems.isEmpty
  | .obj fields => !fields.isEmpty

/-- Lookup modelling `dict.get` on a JSON object decoded by `json.loads`; with
duplicate keys `json.loads` keeps the last occurrence, hence the reverse
search. -/
def jget (fields : List (String × Json)) (k : String) : Option Json :=
  (fields.reverse.find? fun p => p.1 == k).map fun p => p.2

/-- Python `s.startswith(pre)`: code-point prefix test. -/
def pyStartswith (s pre : String) : Bool := decide (pre.data <+: s.data)

/-- Python `sub in s`: code-point substring test. -/
def pyContains (s sub : String) : Bool := decide (sub.data <:+: s.data)

/-- Python `s.strip()`: drop whitespace from both ends. -/
def pyStrip (s : String) : String :=
  ⟨((s.data.dropWhile Char.isWhitespace).reverse.dropWhile Char.isWhitespace).reverse⟩

/-- Python `s.lower()` (the inputs in play are ASCII, where `Char.toLower`
agrees with Python's case mapping). -/
def pyLower (s : String) : String := ⟨s.data.map Char.toLower⟩

/-- URL of the blog post listing the candidate menus. -/
def BLOG_URL : String :=
  "https://panelinha.com.br/blog/ritalobo/post/top-13-cardapios-para-resolver-o-jantar-da-semana"

/-- Absolute recipe-URL form matched by `get_recipe_urls`. -/
def RECIPE_ABS : String := "https://www.panelinha.com.br/receita/"

/-- Site origin used to resolve site-relative recipe hrefs. -/
def SITE_ORIGIN : String := "https://www.panelinha.com.br"

/-- Loop body of `get_recipe_urls`: keep hrefs that start with the
absolute recipe form, resolve hrefs that start with `/receita/` against
the site origin, drop the rest. -/
def collectRecipeUrls : List String → List String
  | [] => []
  | href :: rest =>
    if pyStartswith href RECIPE_ABS then
      href :: collectRecipeUrls rest
    else if pyStartswith href "/receita/" then
      (SITE_ORIGIN ++ href) :: collectRecipeUrls rest
    else
      collectRecipeUrls rest

/-- Order-preserving deduplication keeping the first occurrence
(`list(dict.fromkeys(recipe_urls))`); `seen` accumulates the keys already
emitted. -/
def dedupFirst (seen : List String) : List String → List String
  | [] => []
  | x :: xs =>
    if x ∈ seen then dedupFirst seen xs
    else x :: dedupFirst (x :: seen) xs

/-- Function `get_recipe_urls`, over the hrefs of the listing page's anchors
(`soup.find_all("a", href=True)` in document order). -/
def get_recipe_urls (hrefs : List String) : List String :=
  dedupFirst [] (collectRecipeUrls hrefs)

/-- One `h2`/`h3`/`h4`/`h5` heading of a recipe page: its text
(`h.get_text()`) and the `<li>` texts of the `<ul>` that
`h.find_next("ul")` returns, when such a `<ul>` exists. -/
structure Heading where
  text : String
  nextUl : Option (List String)

/-- State of the `js_recipe_schema` script tag of a recipe page:
missing (or present with `.string` equal to `None`), present but not
decodable by `json.loads` (`JSONDecodeError`), or decoded to a JSON
value. -/
inductive ScriptTag where
  | absent
  | invalid
  | val (j : Json)

/-- A fetched recipe page, as seen through the BeautifulSoup queries
`parse_recipe` performs: title text (if a `<title>` exists), the
`js_recipe_schema` script, the headings, and the texts of all `<li>`
elements of the page in document order. -/
structure Page where
  title : Option String
  script : ScriptTag
  headings : List Heading
  allLis : List String

/-- Python `ingredients.append(text)`: appends when `ingredients` is a
list, raises `AttributeError` otherwise. -/
def pyAppendIng (ing : Json) (text : String) : Except PyErr Json :=
  match ing with
  | .arr elems => .ok (.arr (elems ++ [.str text]))
  | _ => .error (.attributeError "object has no attribute append")

/-- Inner loop shared by both fallbacks of `parse_recipe`: for each
`<li>` text, strip it and, when non-blank, append it to `ingredients`. -/
def appendItems (ing : Json) : List String → Except PyErr Json
  | [] => .ok ing
  | li :: rest =>
    let text := pyStrip li
    if text = "" then appendItems ing rest
    else
      match pyAppendIng ing text with
      | .error e => .error e
      | .ok ing' => appendItems ing' rest

/-- Heading loop of `parse_recipe`: for every heading whose text contains
the substring "Ingrediente", append the stripped non-blank `<li>` texts
of the following `<ul>` (when one exists). -/
def headingScan (ing : Json) : List Heading → Except PyErr Json
  | [] => .ok ing
  | h :: rest =>
    if pyContains h.text "Ingrediente" then
      match h.nextUl with
      | some lis =>
        match appendItems ing lis with
        | .error e => .error e
        | .ok ing' => headingScan ing' rest
      | none => headingScan ing rest
    else headingScan ing rest

/-- Fallback chain of `parse_recipe`, entered when `ingredients` is
falsy: run the heading scan, and if the result is still falsy collect
every `<li>` text of the page. -/
def fallbackIngredients (page : Page) (ing : Json) : Except PyErr Json :=
  match headingScan ing page.headings with
  | .error e => .error e
  | .ok ing' =>
    if ing'.truthy then .ok ing'
    else appendItems ing' page.allLis

/-- Function `parse_recipe`, over an already fetched page (`requests.get` and
`raise_for_status` succeeded).  Returns the `(recipe_name, ingredients)`
pair; both components are JSON-typed because the script copies values
out of the decoded JSON object unchecked.  An `.error` result models an
uncaught exception (notably the `AttributeError` from `data.get` when
the decoded JSON is not an object, which `except json.JSONDecodeError`
does not catch). -/
def parse_recipe (url : String) (page : Page) : Except PyErr (Json × Json) :=
  let titleName : Json :=
    match page.title with
    | some t => .str (pyStrip t)
    | none => .str url
  match page.script with
  | .val (.obj fields) =>
    let recipe_name := (jget fields "name").getD titleName
    let ingredients := (jget fields "recipeIngredient").getD (.arr [])
    if ingredients.truthy then .ok (recipe_name, ingredients)
    else
      match fallbackIngredients page ingredients with
      | .error e => .error e
      | .ok ing => .ok (recipe_name, ing)
  | .val _ => .error (.attributeError "object has no attribute get")
  | .absent =>
    match fallbackIngredients page (.arr []) with
    | .error e => .error e
    | .ok ing => .ok (titleName, ing)
  | .invalid =>
    match fallbackIngredients page (.arr []) with
    | .error e => .error e
    | .ok ing => .ok (titleName, ing)

/-- Message of the `RuntimeError` raised when fewer than five recipe
URLs are found (the spec's `InsufficientRecipesError`). -/
def insufficientMsg : String :=
  "Não foram encontradas receitas suficientes para montar o cardápio."

/-- Sampling `random.sample(pool, k)` modelled by an oracle list of draws: each
draw picks the index `picks.head % pool.length` and removes that element
from the pool, i.e. uniform sampling without replacement is modelled as
an arbitrary without-replacement selection determined by `picks`. -/
def sampleWithout : List Nat → List String → Nat → List String
  | _, _, 0 => []
  | _, [], _ + 1 => []
  | picks, hd :: tl, k + 1 =>
    let i := picks.headD 0 % (hd :: tl).length
    (hd :: tl).getD i hd :: sampleWithout picks.tail ((hd :: tl).eraseIdx i) k

/-- Python `all_ingredients.extend(ingredients)`: lists extend by their
elements, strings by their one-character substrings, dicts by their
keys; other values raise `TypeError`. -/
def pyExtend (acc : List Json) : Json → Except PyErr (List Json)
  | .arr elems => .ok (acc ++ elems)
  | .str s => .ok (acc ++ s.data.map fun c => .str ⟨[c]⟩)
  | .obj fields => .ok (acc ++ fields.map fun f => .str f.1)
  | _ => .error (.typeError "object is not iterable")

/-- Per-URL loop of `build_menu`: try to parse each selected URL; on any
exception print a failure line and skip the URL; on success append the
`(name, url)` pair to the menu and extend the ingredient accumulator.
The third component collects the printed failure lines. -/
def recipeLoop (results : String → Except PyErr (Json × Json)) :
    List String → List (Json × String) → List Json → List String →
    Except PyErr (List (Json × String) × List Json × List String)
  | [], menu, acc, log => .ok (menu, acc, log)
  | url :: rest, menu, acc, log =>
    match results url with
    | .error e =>
      recipeLoop results rest menu acc
        (log ++ ["Falha ao processar " ++ url ++ ": " ++ e.msg])
    | .ok (name, ing) =>
      match pyExtend acc ing with
      | .error e => .error e
      | .ok acc' => recipeLoop results rest (menu ++ [(name, url)]) acc' log

/-- Normalisation loop of `build_menu`: for each ingredient, key it by
`item.strip().lower()` and, when the key is new, record
`(key, item.strip())`; `item.strip()` raises `AttributeError` on
non-string items. -/
def normalizeLoop : List Json → List (String × String) → Except PyErr (List (String × String))
  | [], acc => .ok acc
  | item :: rest, acc =>
    match item with
    | .str s =>
      let key := pyLower (pyStrip s)
      normalizeLoop rest
        (if acc.any fun p => p.1 == key then acc else acc ++ [(key, pyStrip s)])
    | _ => .error (.attributeError "object has no attribute strip")

/-- Lexicographic order on code-point lists (Python's `<=` on strings,
as used by `sorted` through its comparison calls). -/
def pyListLe : List Char → List Char → Bool
  | [], _ => true
  | _ :: _, [] => false
  | a :: as, b :: bs =>
    if a.toNat < b.toNat then true
    else if b.toNat < a.toNat then false
    else pyListLe as bs

/-- Python `a <= b` on strings: code-point lexicographic comparison. -/
def pyLe (a b : String) : Bool := pyListLe a.data b.data

/-- Stable insertion by the case-insensitive key, placing the new element
before the first element with a greater-or-equal key. -/
def insertLower (x : String) : List String → List String
  | [] => [x]
  | y :: ys =>
    if pyLe (pyLower x) (pyLower y) then x :: y :: ys
    else y :: insertLower x ys

/-- Python `sorted(values, key=lambda s: s.lower())`: a stable sort by
the lowercase projection (insertion sort is stable, and Python's sort is
stable, so the two agree on every input). -/
def sortByLower : List String → List String
  | [] => []
  | x :: xs => insertLower x (sortByLower xs)

/-- Deduplicate-and-sort step of `build_menu` (`normalized` dict build
followed by `sorted(normalized.values(), key=lambda s: s.lower())`). -/
def unique_ingredients (allIng : List Json) : Except PyErr (List String) :=
  match normalizeLoop allIng [] with
  | .error e => .error e
  | .ok norm => .ok (sortByLower (norm.map fun p => p.2))

/-- Function `build_menu` with the printed failure lines kept as a third
component: discover URLs, fail when fewer than five, sample five, run
the per-URL loop, then deduplicate and sort the ingredients. -/
def build_menu_full (picks : List Nat) (listingHrefs : List String)
    (results : String → Except PyErr (Json × Json)) :
    Except PyErr (List (Json × String) × List String × List String) :=
  let urls := get_recipe_urls listingHrefs
  if urls.length < 5 then .error (.runtimeError insufficientMsg)
  else
    match recipeLoop results (sampleWithout picks urls 5) [] [] [] with
    | .error e => .error e
    | .ok (menu, acc, log) =>
      match unique_ingredients acc with
      | .error e => .error e
      | .ok shopping => .ok (menu, shopping, log)

/-- Function `build_menu`: the `(menu, unique_ingredients)` pair the source
returns (printed lines projected away). -/
def build_menu (picks : List Nat) (listingHrefs : List String)
    (results : String → Except PyErr (Json × Json)) :
    Except PyErr (List (Json × String) × List String) :=
  match build_menu_full picks listingHrefs results with
  | .error e => .error e
  | .ok (menu, shopping, _) => .ok (menu, shopping)

/-- Weekday labels used by `compose_email` (Monday through Friday). -/
def dias_semana : List String :=
  ["Segunda-feira", "Terça-feira", "Quarta-feira", "Quinta-feira", "Sexta-feira"]

/-- Function `compose_email`: greeting line, one line per menu entry labelled by
the weekday at index `idx % 5`, then the shopping-list section with one
bulleted line per ingredient, all joined by newlines. -/
def compose_email (menu : List (String × String)) (ingredients : List String) : String :=
  let menuLines := menu.enum.map fun e =>
    dias_semana.getD (e.1 % dias_semana.length) "" ++ ": " ++ e.2.1 ++ " — " ++ e.2.2
  let ingLines := ingredients.map fun item => "- " ++ item
  String.intercalate "\n"
    ("Olá! Aqui está o cardápio semanal sugerido:\n" ::
      menuLines ++ "\nLista de compras:" :: ingLines)

/-- Python `str()` applied to a JSON-derived value when it is
interpolated into the e-mail body; every scenario proved below only
interpolates string values, where `str` is the identity. -/
def pyStr : Json → String
  | .str s => s
  | .null => "None"
  | .bool true => "True"
  | .bool false => "False"
  | .num n => toString n
  | .arr _ => "<list>"
  | .obj _ => "<dict>"

/-- Observable SMTP actions `send_email` performs after the
configuration check. -/
inductive NetEvent where
  | connectSSL (host : String) (port : Nat)
  | login (user password : String)
  | sendmail (sender recipient subject body : String)
deriving DecidableEq

/-- Message of the `RuntimeError` raised by `send_email` when the
environment configuration is incomplete (the spec's
`ConfigurationError`). -/
def configMsg : String :=
  "Credenciais ou destinatário ausentes. Configure as variáveis de ambiente MEAL_PLANNER_EMAIL, MEAL_PLANNER_PASS e RECIPIENT_EMAIL."

/-- Python falsiness of `os.environ.get(...)`: `None` or the empty
string. -/
def pyFalsyStr : Option String → Bool
  | none => true
  | some s => s == ""

/-- Function `send_email` over an environment oracle: read the three variables,
raise the configuration `RuntimeError` when any is falsy, otherwise
perform the SMTP-over-SSL session (modelled as its list of observable
actions; the message content is determined by `subject` and `body`). -/
def send_email (env : String → Option String) (subject body : String) :
    Except PyErr (List NetEvent) :=
  let user := env "MEAL_PLANNER_EMAIL"
  let password := env "MEAL_PLANNER_PASS"
  let recipient := env "RECIPIENT_EMAIL"
  if pyFalsyStr user || pyFalsyStr password || pyFalsyStr recipient then
    .error (.runtimeError configMsg)
  else
    .ok [.connectSSL "smtp.gmail.com" 465,
      .login (user.getD "") (password.getD ""),
      .sendmail (user.getD "") (recipient.getD "") subject body]

/-- Inputs one firing of the scheduled job depends on: the sampling
draws, the listing page's anchor hrefs, the per-URL fetch-and-parse
outcomes, and the process environment. -/
structure JobEnv where
  picks : List Nat
  listingHrefs : List String
  results : String → Except PyErr (Json × Json)
  env : String → Option String

/-- Function `job`: build the menu (errors propagate — only `send_email` is
wrapped in `try`/`except`), compose the body, attempt the send and log
its outcome.  The `.ok` result collects the lines printed by the run. -/
def job (inp : JobEnv) : Except PyErr (List String) :=
  match build_menu_full inp.picks inp.listingHrefs inp.results with
  | .error e => .error e
  | .ok (menu, shopping, plog) =>
    let corpo := compose_email (menu.map fun e => (pyStr e.1, e.2)) shopping
    match send_email inp.env "Cardápio semanal e lista de compras" corpo with
    | .ok _ =>
      .ok ("Construindo cardápio..." :: plog ++ ["Cardápio enviado com sucesso!"])
    | .error e =>
      .ok ("Construindo cardápio..." :: plog ++ ["Falha ao enviar o e-mail: " ++ e.msg])

/-- The `while True: schedule.run_pending(); time.sleep(60)` loop of
`schedule_job`, over a finite trace of loop iterations: `none` is an
iteration where no job is due, `some inp` an iteration whose
`run_pending` fires the job on inputs `inp`.  The `schedule` library
does not catch job exceptions, and neither does the loop, so an
exception from `job` terminates the whole process: the remaining
iterations never run and the `.error` result is the crash. -/
def schedule_loop : List (Option JobEnv) → Except PyErr (List String)
  | [] => .ok []
  | none :: rest => schedule_loop rest
  | some inp :: rest =>
    match job inp with
    | .error e => .error e
    | .ok lines =>
      match schedule_loop rest with
      | .error e => .error e
      | .ok later => .ok (lines ++ later)

/-! Spec-side definitions.  These restate, in the spec's own words,
what the claims say the corresponding source functions compute; the
theorems below compare them with the definitions translated from the
source. -/

/-- Spec's candidate test for C3: an anchor is a candidate when its href
starts with the canonical recipe path in absolute form or in
site-relative form. -/
def specCandidate (href : String) : Bool :=
  pyStartswith href RECIPE_ABS || pyStartswith href "/receita/"

/-- Spec's href resolution for C3: relative candidate hrefs are resolved
to absolute form using the known site origin. -/
def specResolve (href : String) : String :=
  if pyStartswith href RECIPE_ABS then href else SITE_ORIGIN ++ href

/-- Spec's count of duplicate candidates for C3 (`K`): the number of
candidates minus the number of distinct candidates. -/
def specDupCount (l : List String) : Nat := l.length - (dedupFirst [] l).length

/-- Trimmed non-blank list items of the list element following each
heading (of a given list of headings) whose text contains
"Ingrediente". -/
def specHeadingItemsL (hs : List Heading) : List String :=
  (hs.filter fun h => pyContains h.text "Ingrediente").flatMap fun h =>
    match h.nextUl with
    | some lis => (lis.map pyStrip).filter fun t => t ≠ ""
    | none => []

/-- Spec's heading fallback for C1: the trimmed non-blank list items of
the list element following each heading of the page whose text contains
"Ingrediente". -/
def specHeadingItems (page : Page) : List String :=
  specHeadingItemsL page.headings

/-- Spec's last-resort fallback for C1: all list-item texts on the page,
trimmed, blanks skipped. -/
def specAllItems (page : Page) : List String :=
  (page.allLis.map pyStrip).filter fun t => t ≠ ""

/-- Spec's deduplication for C2 (as amended): walk the ingredients in
order, keeping the trimmed value of each item whose lowercase-trimmed
key was not seen before. -/
def specDedupeGo (seen : List String) : List String → List String
  | [] => []
  | x :: xs =>
    let key := pyLower (pyStrip x)
    if key ∈ seen then specDedupeGo seen xs
    else pyStrip x :: specDedupeGo (key :: seen) xs

/-- Spec's shopping list for C2 (as amended): deduplicate then sort
case-insensitively by the lowercase projection. -/
def specShopping (items : List String) : List String :=
  sortByLower (specDedupeGo [] items)

/-- Spec's menu lines for C7: entry number `i` (counting from `i0`) is
labelled with the weekday at index `i % 5`, one line per entry, missing
entries producing no line. -/
def specMenuLines (i0 : Nat) : List (String × String) → List String
  | [] => []
  | e :: rest =>
    (dias_semana.getD (i0 % 5) "" ++ ": " ++ e.1 ++ " — " ++ e.2) ::
      specMenuLines (i0 + 1) rest

/-- Spec's e-mail body for C7: greeting, weekday lines by index modulo 5,
then a shopping-list section listing each item once, in input order,
prefixed by a bullet marker. -/
def compose_spec (menu : List (String × String)) (ingredients : List String) : String :=
  String.intercalate "\n"
    ("Olá! Aqui está o cardápio semanal sugerido:\n" ::
      specMenuLines 0 menu ++ "\nLista de compras:" :: ingredients.map fun item => "- " ++ item)

/-- Step-2 trigger of the spec's parsing algorithm (C1): the structured
data yields no ingredients because the block is missing, fails to
decode, or decodes to a map whose `recipeIngredient` is absent or the
empty list. -/
def scriptYieldsNoIng (page : Page) : Prop :=
  page.script = .absent ∨ page.script = .invalid ∨
    ∃ fields, page.script = .val (.obj fields) ∧
      (jget fields "recipeIngredient" = none ∨
        jget fields "recipeIngredient" = some (.arr []))

/-- Script shapes on which `parse_recipe` is guaranteed to return a pair
(C6 as amended): block missing, undecodable, or decoded to a map whose
`recipeIngredient` is absent, a list, or a truthy value. -/
def benignScript (page : Page) : Prop :=
  page.script = .absent ∨ page.script = .invalid ∨
    ∃ fields, page.script = .val (.obj fields) ∧
      (jget fields "recipeIngredient" = none ∨
        (∃ elems, jget fields "recipeIngredient" = some (.arr elems)) ∨
        (∃ v, jget fields "recipeIngredient" = some v ∧ v.truthy = true))

/-- Condition of C10: the structured-data block supplies no `name`
(block missing, undecodable, or a map without a `name` key). -/
def scriptNoName (page : Page) : Prop :=
  page.script = .absent ∨ page.script = .invalid ∨
    ∃ fields, page.script = .val (.obj fields) ∧ jget fields "name" = none

/-! Scenario helpers: a fetch-and-parse oracle built from a description
of each recipe page's outcome as either an exception or a name together
with a list of string ingredients (the shape every well-formed recipe
page produces). -/

/-- Fetch-and-parse oracle built from per-URL outcomes `(name, ingredients)`
with string ingredient lists. -/
def mkResults (f : String → Except PyErr (Json × List String)) :
    String → Except PyErr (Json × Json) := fun url =>
  match f url with
  | .error e => .error e
  | .ok (name, xs) => .ok (name, .arr (xs.map Json.str))

/-- Menu produced by the per-URL loop under oracle `f`: one `(name, url)`
pair per successfully parsed selected URL, in selection order. -/
def okMenu (f : String → Except PyErr (Json × List String)) (sel : List String) :
    List (Json × String) :=
  sel.filterMap fun url =>
    match f url with
    | .ok p => some (p.1, url)
    | .error _ => none

/-- Concatenation of the ingredient lists of the successfully parsed
selected URLs, in selection order. -/
def allIngs (f : String → Except PyErr (Json × List String)) (sel : List String) :
    List String :=
  sel.flatMap fun url =>
    match f url with
    | .ok p => p.2
    | .error _ => []

/-- Failure lines printed by the per-URL loop under oracle `f`. -/
def failLog (f : String → Except PyErr (Json × List String)) (sel : List String) :
    List String :=
  sel.filterMap fun url =>
    match f url with
    | .ok _ => none
    | .error e => some ("Falha ao processar " ++ url ++ ": " ++ e.msg)

/-! Helper lemmas. -/

theorem collectRecipeUrls_eq (hrefs : List String) :
    collectRecipeUrls hrefs = (hrefs.filter specCandidate).map specResolve := by
  induction hrefs with
  | nil => rfl
  | cons h t ih =>
    simp only [collectRecipeUrls, List.filter, specCandidate, specResolve]
    cases h1 : pyStartswith h RECIPE_ABS with
    | true => simp [specResolve, h1, ih]
    | false =>
      cases h2 : pyStartswith h "/receita/" with
      | true => simp [specResolve, h1, h2, ih]
      | false => simp [h1, h2, ih]

theorem mem_dedupFirst {x : String} :
    ∀ (seen l : List String), x ∈ dedupFirst seen l → x ∈ l := by
  intro seen l
  induction l generalizing seen with
  | nil => simp [dedupFirst]
  | cons a t ih =>
    intro hx
    simp only [dedupFirst] at hx
    split at hx
    · exact List.mem_cons_of_mem _ (ih _ hx)
    · rcases List.mem_cons.mp hx with h | h
      · exact h ▸ List.mem_cons_self a t
      · exact List.mem_cons_of_mem _ (ih _ h)

theorem dedupFirst_not_mem_of_mem_seen {x : String} :
    ∀ (seen l : List String), x ∈ seen → x ∉ dedupFirst seen l := by
  intro seen l
  induction l generalizing seen with
  | nil => intro _; simp [dedupFirst]
  | cons a t ih =>
    intro hs
    simp only [dedupFirst]
    split
    · exact ih _ hs
    · intro hx
      rcases List.mem_cons.mp hx with h | h
      · subst h; exact absurd hs (by assumption)
      · exact ih (a :: seen) (List.mem_cons_of_mem _ hs) h

theorem nodup_dedupFirst : ∀ (seen l : List String), (dedupFirst seen l).Nodup := by
  intro seen l
  induction l generalizing seen with
  | nil => simp [dedupFirst]
  | cons a t ih =>
    simp only [dedupFirst]
    split
    · exact ih _
    · exact List.nodup_cons.mpr
        ⟨dedupFirst_not_mem_of_mem_seen _ _ (List.mem_cons_self a seen), ih _⟩

theorem dedupFirst_length_le : ∀ (seen l : List String),
    (dedupFirst seen l).length ≤ l.length := by
  intro seen l
  induction l generalizing seen with
  | nil => simp [dedupFirst]
  | cons a t ih =>
    simp only [dedupFirst]
    split
    · exact Nat.le_succ_of_le (ih _)
    · simpa using ih (a :: seen)

theorem pyStartswith_origin_of_abs {u : String}
    (h : pyStartswith u RECIPE_ABS = true) : pyStartswith u SITE_ORIGIN = true := by
  have h1 : RECIPE_ABS.data <+: u.data := of_decide_eq_true h
  have h2 : SITE_ORIGIN.data <+: RECIPE_ABS.data := by decide
  exact decide_eq_true (h2.trans h1)

theorem pyStartswith_origin_append (s : String) :
    pyStartswith (SITE_ORIGIN ++ s) SITE_ORIGIN = true := by
  cases s with
  | mk d => exact decide_eq_true (List.prefix_append _ _)

theorem mem_collect_origin {u : String} :
    ∀ hrefs : List String, u ∈ collectRecipeUrls hrefs →
      pyStartswith u SITE_ORIGIN = true := by
  intro hrefs
  induction hrefs with
  | nil => simp [collectRecipeUrls]
  | cons h t ih =>
    simp only [collectRecipeUrls]
    split
    · intro hu
      rcases List.mem_cons.mp hu with h' | h'
      · exact h' ▸ pyStartswith_origin_of_abs (by assumption)
      · exact ih h'
    · split
      · intro hu
        rcases List.mem_cons.mp hu with h' | h'
        · exact h' ▸ pyStartswith_origin_append h
        · exact ih h'
      · exact ih

theorem appendItems_arr : ∀ (lis : List String) (xs : List Json),
    appendItems (.arr xs) lis =
      .ok (.arr (xs ++ ((lis.map pyStrip).filter fun t => t ≠ "").map Json.str)) := by
  intro lis
  induction lis with
  | nil => intro xs; simp [appendItems]
  | cons li rest ih =>
    intro xs
    simp only [appendItems, List.map_cons, List.filter_cons]
    by_cases h : pyStrip li = ""
    · simp [h, ih]
    · simp [h, pyAppendIng, ih (xs ++ [.str (pyStrip li)])]

theorem headingScan_arr : ∀ (hs : List Heading) (xs : List Json),
    headingScan (.arr xs) hs = .ok (.arr (xs ++ (specHeadingItemsL hs).map Json.str)) := by
  intro hs
  induction hs with
  | nil => intro xs; simp [headingScan, specHeadingItemsL]
  | cons h rest ih =>
    intro xs
    simp only [headingScan, specHeadingItemsL, List.filter_cons]
    by_cases hc : pyContains h.text "Ingrediente" = true
    · cases hul : h.nextUl with
      | some lis =>
        simp [hc, hul, appendItems_arr, ih, specHeadingItemsL]
      | none =>
        simp [hc, hul, ih, specHeadingItemsL]
    · simp [hc, ih, specHeadingItemsL]

theorem fallbackIngredients_arr_nil (page : Page) :
    fallbackIngredients page (.arr []) =
      .ok (.arr ((if specHeadingItems page = [] then specAllItems page
        else specHeadingItems page).map Json.str)) := by
  simp only [fallbackIngredients, headingScan_arr, List.nil_append, specHeadingItems]
  by_cases hh : specHeadingItemsL page.headings = []
  · simp [hh, Json.truthy, appendItems_arr, specAllItems]
  · have hne : ((specHeadingItemsL page.headings).map Json.str).isEmpty = false := by
      rw [List.isEmpty_eq_false]
      simpa using hh
    simp [Json.truthy, hne, hh]

/-- C3: for every listing-page HTML input, `get_recipe_urls` returns
exactly the hrefs of anchors that start with the absolute recipe prefix
or its site-relative form, with relative hrefs resolved against the
known site origin, in first-occurrence order with duplicates removed:
the output is the first-occurrence deduplication of the resolved
candidates, it has no duplicates, its length is M − K (M matching
anchors, K of them duplicates), and every output is an absolute URL
under the known origin. -/
theorem C3_get_recipe_urls_contract (hrefs : List String) :
    get_recipe_urls hrefs = dedupFirst [] ((hrefs.filter specCandidate).map specResolve)
    ∧ (get_recipe_urls hrefs).Nodup
    ∧ (get_recipe_urls hrefs).length =
        ((hrefs.filter specCandidate).map specResolve).length
          - specDupCount ((hrefs.filter specCandidate).map specResolve)
    ∧ ∀ u ∈ get_recipe_urls hrefs, pyStartswith u SITE_ORIGIN = true := by
  refine ⟨by rw [get_recipe_urls, collectRecipeUrls_eq], nodup_dedupFirst _ _, ?_, ?_⟩
  · rw [get_recipe_urls, collectRecipeUrls_eq, specDupCount,
      Nat.sub_sub_self (dedupFirst_length_le _ _)]
  · intro u hu
    exact mem_collect_origin hrefs (mem_dedupFirst _ _ hu)

/-- Witness for C3: a listing with four anchors, of which three match
(one a duplicate, one site-relative), yields the two expected absolute
URLs, both under the site origin. -/
theorem C3_get_recipe_urls_contract_witness :
    get_recipe_urls ["/receita/a", "https://www.panelinha.com.br/receita/b", "/outro",
        "https://www.panelinha.com.br/receita/a"] =
      ["https://www.panelinha.com.br/receita/a", "https://www.panelinha.com.br/receita/b"]
    ∧ pyStartswith "https://www.panelinha.com.br/receita/b" SITE_ORIGIN = true := by
  constructor
  · decide
  · exact (C3_get_recipe_urls_contract ["/receita/a",
      "https://www.panelinha.com.br/receita/b", "/outro",
      "https://www.panelinha.com.br/receita/a"]).2.2.2 _ (by decide)

theorem parse_recipe_noIng (url : String) (page : Page) (h : scriptYieldsNoIng page) :
    ∃ nm, parse_recipe url page =
      .ok (nm, .arr ((if specHeadingItems page = [] then specAllItems page
        else specHeadingItems page).map Json.str)) := by
  rcases h with h | h | ⟨fields, hs, hri⟩
  · refine ⟨match page.title with | some t => Json.str (pyStrip t) | none => Json.str url, ?_⟩
    simp [parse_recipe, h, fallbackIngredients_arr_nil]
  · refine ⟨match page.title with | some t => Json.str (pyStrip t) | none => Json.str url, ?_⟩
    simp [parse_recipe, h, fallbackIngredients_arr_nil]
  · refine ⟨(jget fields "name").getD
      (match page.title with | some t => Json.str (pyStrip t) | none => Json.str url), ?_⟩
    rcases hri with hri | hri
    · simp [parse_recipe, hs, hri, Json.truthy, fallbackIngredients_arr_nil]
    · simp [parse_recipe, hs, hri, Json.truthy, fallbackIngredients_arr_nil]

/-- C1: `parse_recipe` follows the extraction priority order.  (1) When
the structured-data block decodes to a map with a string `name` and a
non-empty `recipeIngredient` list, it returns exactly that pair.
(2) When the block is missing, undecodable, or yields no ingredients
(key absent or empty list), it returns the trimmed non-blank list items
of the list element following each heading containing "Ingrediente",
when these exist.  (3) When those also yield nothing, it returns all
list-item texts of the page, trimmed, blanks skipped. -/
theorem C1_parse_recipe_priority :
    (∀ (url : String) (page : Page) (fields : List (String × Json)) (n : String)
        (xs : List String),
        page.script = .val (.obj fields) →
        jget fields "name" = some (.str n) →
        jget fields "recipeIngredient" = some (.arr (xs.map Json.str)) →
        xs ≠ [] →
        parse_recipe url page = .ok (.str n, .arr (xs.map Json.str)))
    ∧ (∀ (url : String) (page : Page), scriptYieldsNoIng page →
        specHeadingItems page ≠ [] →
        ∃ nm, parse_recipe url page = .ok (nm, .arr ((specHeadingItems page).map Json.str)))
    ∧ (∀ (url : String) (page : Page), scriptYieldsNoIng page →
        specHeadingItems page = [] →
        ∃ nm, parse_recipe url page = .ok (nm, .arr ((specAllItems page).map Json.str))) := by
  refine ⟨?_, ?_, ?_⟩
  · intro url page fields n xs hs hn hri hne
    have htr : (Json.arr (xs.map Json.str)).truthy = true := by
      simp [Json.truthy, hne]
    simp [parse_recipe, hs, hn, hri, htr]
  · intro url page h h2
    obtain ⟨nm, hp⟩ := parse_recipe_noIng url page h
    exact ⟨nm, by rwa [if_neg h2] at hp⟩
  · intro url page h h2
    obtain ⟨nm, hp⟩ := parse_recipe_noIng url page h
    exact ⟨nm, by rwa [if_pos h2] at hp⟩

/-- Witness for C1: the three priority levels at concrete pages — a
valid block with name "X" and ingredients ["a","b"]; a malformed block
with a heading "Ingredientes" followed by the list ["c","d"]; and a
missing block with no matching heading but stray list items. -/
theorem C1_parse_recipe_priority_witness :
    parse_recipe "u" ⟨some "Titulo",
        .val (.obj [("name", .str "X"), ("recipeIngredient", .arr [.str "a", .str "b"])]),
        [], []⟩ =
      .ok (.str "X", .arr [.str "a", .str "b"])
    ∧ (∃ nm, parse_recipe "u" ⟨some "T", .invalid,
        [⟨"Ingredientes", some ["c", "d"]⟩], ["zz"]⟩ =
        .ok (nm, .arr [.str "c", .str "d"]))
    ∧ (∃ nm, parse_recipe "u" ⟨some "T", .absent,
        [⟨"Modo de preparo", some ["c"]⟩], [" x ", "", "y"]⟩ =
        .ok (nm, .arr [.str "x", .str "y"])) := by
  refine ⟨?_, ?_, ?_⟩
  · exact C1_parse_recipe_priority.1 "u" _ _ "X" ["a", "b"] rfl rfl rfl (by decide)
  · exact C1_parse_recipe_priority.2.1 "u" _ (Or.inr (Or.inl rfl)) (by decide)
  · exact C1_parse_recipe_priority.2.2 "u" _ (Or.inl rfl) (by decide)

/-- Counterexample for C6: on a page whose structured-data block decodes
to a non-map value (here the empty JSON array), `parse_recipe` raises
`AttributeError` — `data.get` does not exist on a list and the
`except json.JSONDecodeError` clause does not catch it — instead of
returning a best-effort pair. -/
theorem C6_counterexample :
    parse_recipe "u" ⟨some "T", .val (.arr []), [], []⟩ =
      .error (.attributeError "object has no attribute get") := rfl

/-- C6 (amended): `parse_recipe` does not fail on parse ambiguity as
long as the structured-data block is absent, undecodable, or decodes to
a map whose `recipeIngredient` is absent, a list, or a truthy value — in
all those cases it returns a best-effort pair, with ingredients possibly
empty; but when the block decodes to a non-map value it raises
`AttributeError`. -/
theorem C6_parse_recipe_best_effort_amended :
    (∀ (url : String) (page : Page), benignScript page →
      ∃ nm ing, parse_recipe url page = .ok (nm, ing))
    ∧ (∀ (url : String) (page : Page) (j : Json), page.script = .val j →
        (∀ fields, j ≠ .obj fields) →
        ∃ m, parse_recipe url page = .error (.attributeError m)) := by
  constructor
  · intro url page h
    rcases h with h | h | ⟨fields, hs, hri | ⟨elems, hri⟩ | ⟨v, hri, hv⟩⟩
    · obtain ⟨nm, hp⟩ := parse_recipe_noIng url page (Or.inl h)
      exact ⟨nm, _, hp⟩
    · obtain ⟨nm, hp⟩ := parse_recipe_noIng url page (Or.inr (Or.inl h))
      exact ⟨nm, _, hp⟩
    · obtain ⟨nm, hp⟩ := parse_recipe_noIng url page
        (Or.inr (Or.inr ⟨fields, hs, Or.inl hri⟩))
      exact ⟨nm, _, hp⟩
    · by_cases he : elems = []
      · obtain ⟨nm, hp⟩ := parse_recipe_noIng url page
          (Or.inr (Or.inr ⟨fields, hs, Or.inr (he ▸ hri)⟩))
        exact ⟨nm, _, hp⟩
      · refine ⟨(jget fields "name").getD
          (match page.title with | some t => Json.str (pyStrip t) | none => Json.str url),
          .arr elems, ?_⟩
        have ht : (Json.arr elems).truthy = true := by simp [Json.truthy, he]
        simp [parse_recipe, hs, hri, ht]
    · refine ⟨(jget fields "name").getD
        (match page.title with | some t => Json.str (pyStrip t) | none => Json.str url),
        v, ?_⟩
      simp [parse_recipe, hs, hri, hv]
  · intro url page j hs hno
    cases j with
    | obj fields => exact absurd rfl (hno fields)
    | null => exact ⟨"object has no attribute get", by simp [parse_recipe, hs]⟩
    | bool b => exact ⟨"object has no attribute get", by simp [parse_recipe, hs]⟩
    | num n => exact ⟨"object has no attribute get", by simp [parse_recipe, hs]⟩
    | str s => exact ⟨"object has no attribute get", by simp [parse_recipe, hs]⟩
    | arr elems => exact ⟨"object has no attribute get", by simp [parse_recipe, hs]⟩

/-- Witness for C6 (amended): a page with a missing block returns a
best-effort pair, and a page whose block decodes to a JSON string
raises `AttributeError`. -/
theorem C6_parse_recipe_best_effort_amended_witness :
    (∃ nm ing, parse_recipe "u" ⟨some "T", .absent, [], []⟩ = .ok (nm, ing))
    ∧ (∃ m, parse_recipe "u" ⟨some "T", .val (.str "x"), [], []⟩ =
        .error (.attributeError m)) :=
  ⟨C6_parse_recipe_best_effort_amended.1 "u" _ (Or.inl rfl),
    C6_parse_recipe_best_effort_amended.2 "u" _ (.str "x") rfl
      (fun _ h => Json.noConfusion h)⟩

/-- C10: if the fetched recipe page has no title element and its
structured-data block supplies no name, then whatever pair
`parse_recipe` returns has the recipe URL itself as the recipe name. -/
theorem C10_parse_recipe_name_defaults_to_url (url : String) (page : Page)
    (nm ing : Json) (ht : page.title = none) (hn : scriptNoName page)
    (hp : parse_recipe url page = .ok (nm, ing)) : nm = .str url := by
  rcases hn with h | h | ⟨fields, hs, hname⟩
  · simp [parse_recipe, h, ht, fallbackIngredients_arr_nil] at hp
    exact hp.1.symm
  · simp [parse_recipe, h, ht, fallbackIngredients_arr_nil] at hp
    exact hp.1.symm
  · by_cases htr : ((jget fields "recipeIngredient").getD (.arr [])).truthy = true
    · simp [parse_recipe, hs, hname, ht, htr] at hp
      exact hp.1.symm
    · cases hfb : fallbackIngredients page ((jget fields "recipeIngredient").getD (.arr [])) with
      | error e => simp [parse_recipe, hs, hname, ht, htr, hfb] at hp
      | ok ing' =>
        simp [parse_recipe, hs, hname, ht, htr, hfb] at hp
        exact hp.1.symm

/-- Witness for C10: a page with no title and no structured-data name
parses with the URL as the recipe name. -/
theorem C10_parse_recipe_name_defaults_to_url_witness :
    parse_recipe "u" ⟨none, .absent, [], ["i"]⟩ = .ok (.str "u", .arr [.str "i"])
    ∧ Json.str "u" = .str "u" :=
  ⟨rfl, C10_parse_recipe_name_defaults_to_url "u" ⟨none, .absent, [], ["i"]⟩
    (.str "u") (.arr [.str "i"]) rfl (Or.inl rfl) rfl⟩

theorem recipeLoop_mk (f : String → Except PyErr (Json × List String)) :
    ∀ (sel : List String) (menu : List (Json × String)) (acc : List Json) (log : List String),
    recipeLoop (mkResults f) sel menu acc log =
      .ok (menu ++ okMenu f sel, acc ++ (allIngs f sel).map Json.str, log ++ failLog f sel) := by
  intro sel
  induction sel with
  | nil => intro menu acc log; simp [recipeLoop, okMenu, allIngs, failLog]
  | cons url rest ih =>
    intro menu acc log
    simp only [recipeLoop, mkResults]
    cases hf : f url with
    | error e =>
      simp only []
      rw [ih]
      simp [okMenu, allIngs, failLog, hf]
    | ok p =>
      obtain ⟨n, xs⟩ := p
      simp only [pyExtend]
      rw [ih]
      simp [okMenu, allIngs, failLog, hf, List.append_assoc]

theorem normalizeLoop_str :
    ∀ (items : List String) (acc : List (String × String)) (seen : List String),
    (∀ k, k ∈ seen ↔ k ∈ acc.map fun p => p.1) →
    normalizeLoop (items.map Json.str) acc =
      .ok (acc ++ (specDedupeGo seen items).map fun v => (pyLower v, v)) := by
  intro items
  induction items with
  | nil => intro acc seen hseen; simp [normalizeLoop, specDedupeGo]
  | cons x rest ih =>
    intro acc seen hseen
    simp only [List.map_cons, normalizeLoop, specDedupeGo]
    by_cases hk : pyLower (pyStrip x) ∈ seen
    · have hany : (acc.any fun p => p.1 == pyLower (pyStrip x)) = true := by
        rw [List.any_eq_true]
        obtain ⟨p, hp, he⟩ := List.mem_map.mp ((hseen _).mp hk)
        exact ⟨p, hp, by simp [he]⟩
      simp only [hany, if_true, if_pos hk]
      exact ih acc seen hseen
    · have hany : (acc.any fun p => p.1 == pyLower (pyStrip x)) = false := by
        rw [List.any_eq_false]
        intro p hp
        simp only [beq_iff_eq]
        intro he
        exact hk ((hseen _).mpr (List.mem_map.mpr ⟨p, hp, he⟩))
      simp only [hany, Bool.false_eq_true, if_false, if_neg hk, List.map_cons]
      rw [ih (acc ++ [(pyLower (pyStrip x), pyStrip x)]) (pyLower (pyStrip x) :: seen)]
      · simp [List.append_assoc]
      · intro k
        simp only [List.mem_cons, List.map_append, List.mem_append, hseen k]
        simp [or_comm]

theorem unique_ingredients_str (items : List String) :
    unique_ingredients (items.map Json.str) = .ok (specShopping items) := by
  rw [unique_ingredients, normalizeLoop_str items [] [] (by simp)]
  simp [specShopping, List.map_map, Function.comp_def]

theorem insertLower_perm (x : String) :
    ∀ l : List String, List.Perm (insertLower x l) (x :: l) := by
  intro l
  induction l with
  | nil => exact List.Perm.refl _
  | cons y ys ih =>
    simp only [insertLower]
    split
    · exact List.Perm.refl _
    · exact (ih.cons y).trans (List.Perm.swap x y ys)

theorem sortByLower_perm : ∀ l : List String, List.Perm (sortByLower l) l := by
  intro l
  induction l with
  | nil => exact List.Perm.refl _
  | cons x xs ih => exact (insertLower_perm x (sortByLower xs)).trans (ih.cons x)

theorem specDedupeGo_lower_not_mem :
    ∀ (items seen : List String) (v : String),
    v ∈ specDedupeGo seen items → pyLower v ∉ seen := by
  intro items
  induction items with
  | nil => intro seen v hv; simp [specDedupeGo] at hv
  | cons x rest ih =>
    intro seen v hv
    simp only [specDedupeGo] at hv
    split at hv
    · exact ih seen v hv
    · rcases List.mem_cons.mp hv with h | h
      · subst h; assumption
      · intro hmem
        exact ih _ v h (List.mem_cons_of_mem _ hmem)

theorem specDedupeGo_pairwise :
    ∀ (items seen : List String),
    (specDedupeGo seen items).Pairwise fun a b => pyLower a ≠ pyLower b := by
  intro items
  induction items with
  | nil => intro seen; simp [specDedupeGo]
  | cons x rest ih =>
    intro seen
    simp only [specDedupeGo]
    split
    · exact ih _
    · refine List.Pairwise.cons ?_ (ih _)
      intro b hb he
      exact specDedupeGo_lower_not_mem rest _ b hb (he ▸ List.mem_cons_self _ _)

theorem specShopping_pairwise (items : List String) :
    (specShopping items).Pairwise fun a b => pyLower a ≠ pyLower b := by
  have hsymm : Symmetric fun a b : String => pyLower a ≠ pyLower b :=
    fun a b h he => h he.symm
  exact ((sortByLower_perm (specDedupeGo [] items)).pairwise_iff
    (fun h he => hsymm h he)).mpr (specDedupeGo_pairwise items [])

theorem sampleWithout_length :
    ∀ (k : Nat) (picks : List Nat) (pool : List String),
    k ≤ pool.length → (sampleWithout picks pool k).length = k := by
  intro k
  induction k with
  | zero => intro picks pool _; simp [sampleWithout]
  | succ n ih =>
    intro picks pool h
    cases pool with
    | nil => simp at h
    | cons hd tl =>
      have hi : picks.headD 0 % (tl.length + 1) < tl.length + 1 :=
        Nat.mod_lt _ (by omega)
      have hel : ((hd :: tl).eraseIdx (picks.headD 0 % (tl.length + 1))).length
          = tl.length := by
        rw [List.length_eraseIdx, if_pos (by simpa using hi)]
        simp
      simp only [sampleWithout, List.length_cons]
      rw [ih _ _ (by rw [hel]; simp only [List.length_cons] at h; omega)]

theorem sampleWithout_subset :
    ∀ (k : Nat) (picks : List Nat) (pool : List String) (u : String),
    u ∈ sampleWithout picks pool k → u ∈ pool := by
  intro k
  induction k with
  | zero => intro picks pool u hu; simp [sampleWithout] at hu
  | succ n ih =>
    intro picks pool u hu
    cases pool with
    | nil => simp [sampleWithout] at hu
    | cons hd tl =>
      have hi : picks.headD 0 % (hd :: tl).length < (hd :: tl).length :=
        Nat.mod_lt _ (by simp)
      simp only [sampleWithout] at hu
      rcases List.mem_cons.mp hu with h | h
      · rw [h, List.getD_eq_getElem _ _ hi]
        exact List.getElem_mem hi
      · exact List.eraseIdx_subset _ _ (ih _ _ u h)

theorem sampleWithout_nodup :
    ∀ (k : Nat) (picks : List Nat) (pool : List String),
    pool.Nodup → (sampleWithout picks pool k).Nodup := by
  intro k
  induction k with
  | zero => intro picks pool _; simp [sampleWithout]
  | succ n ih =>
    intro picks pool hnd
    cases pool with
    | nil => simp [sampleWithout]
    | cons hd tl =>
      have hi : picks.headD 0 % (hd :: tl).length < (hd :: tl).length :=
        Nat.mod_lt _ (by simp)
      simp only [sampleWithout]
      refine List.nodup_cons.mpr ⟨?_, ih _ _ (hnd.eraseIdx _)⟩
      intro hmem
      have hmem' := sampleWithout_subset n _ _ _ hmem
      rw [List.getD_eq_getElem _ _ hi] at hmem'
      obtain ⟨j, hj, hne, hje⟩ := List.mem_eraseIdx_iff_getElem.mp hmem'
      exact hne ((List.Nodup.getElem_inj_iff hnd).mp hje)

theorem pyExtend_error_shape (acc : List Json) (v : Json) (e : PyErr)
    (h : pyExtend acc v = .error e) : ∃ m, e = .typeError m := by
  cases v <;> simp [pyExtend] at h <;> exact ⟨_, h.symm⟩

theorem recipeLoop_error_shape (results : String → Except PyErr (Json × Json)) :
    ∀ (sel : List String) (menu : List (Json × String)) (acc : List Json)
    (log : List String) (e : PyErr),
    recipeLoop results sel menu acc log = .error e → ∃ m, e = .typeError m := by
  intro sel
  induction sel with
  | nil => intro menu acc log e h; simp [recipeLoop] at h
  | cons url rest ih =>
    intro menu acc log e h
    simp only [recipeLoop] at h
    cases hf : results url with
    | error e' =>
      simp only [hf] at h
      exact ih _ _ _ _ h
    | ok p =>
      obtain ⟨nm, ing⟩ := p
      simp only [hf] at h
      cases hx : pyExtend acc ing with
      | error e'' =>
        simp only [hx, Except.error.injEq] at h
        exact h ▸ pyExtend_error_shape _ _ _ hx
      | ok acc' =>
        simp only [hx] at h
        exact ih _ _ _ _ h

theorem normalizeLoop_error_shape :
    ∀ (items : List Json) (acc : List (String × String)) (e : PyErr),
    normalizeLoop items acc = .error e → ∃ m, e = .attributeError m := by
  intro items
  induction items with
  | nil => intro acc e h; simp [normalizeLoop] at h
  | cons item rest ih =>
    intro acc e h
    cases item with
    | str s =>
      simp only [normalizeLoop] at h
      exact ih _ e h
    | null => simp only [normalizeLoop, Except.error.injEq] at h; exact ⟨_, h.symm⟩
    | bool b => simp only [normalizeLoop, Except.error.injEq] at h; exact ⟨_, h.symm⟩
    | num n => simp only [normalizeLoop, Except.error.injEq] at h; exact ⟨_, h.symm⟩
    | arr elems => simp only [normalizeLoop, Except.error.injEq] at h; exact ⟨_, h.symm⟩
    | obj fields => simp only [normalizeLoop, Except.error.injEq] at h; exact ⟨_, h.symm⟩

theorem unique_ingredients_error_shape (allIng : List Json) (e : PyErr)
    (h : unique_ingredients allIng = .error e) : ∃ m, e = .attributeError m := by
  rw [unique_ingredients] at h
  cases hn : normalizeLoop allIng [] with
  | error e' =>
    rw [hn] at h
    cases h
    exact normalizeLoop_error_shape allIng [] e hn
  | ok norm => rw [hn] at h; cases h

theorem build_menu_full_mk (picks : List Nat) (hrefs : List String)
    (f : String → Except PyErr (Json × List String))
    (h5 : 5 ≤ (get_recipe_urls hrefs).length) :
    build_menu_full picks hrefs (mkResults f) =
      .ok (okMenu f (sampleWithout picks (get_recipe_urls hrefs) 5),
        specShopping (allIngs f (sampleWithout picks (get_recipe_urls hrefs) 5)),
        failLog f (sampleWithout picks (get_recipe_urls hrefs) 5)) := by
  simp only [build_menu_full]
  rw [if_neg (by omega)]
  rw [recipeLoop_mk]
  simp only [List.nil_append]
  rw [unique_ingredients_str]

theorem mem_okMenu {f : String → Except PyErr (Json × List String)} {nm : Json}
    {url : String} (sel : List String) (h : (nm, url) ∈ okMenu f sel) :
    ∃ p, f url = .ok p := by
  obtain ⟨u, hu, hg⟩ := List.mem_filterMap.mp h
  cases hfu : f u with
  | error e => rw [hfu] at hg; cases hg
  | ok p =>
    rw [hfu] at hg
    obtain ⟨h1, h2⟩ := Prod.mk.injEq .. ▸ Option.some.inj hg
    exact h2 ▸ ⟨p, hfu⟩

theorem mem_failLog {f : String → Except PyErr (Json × List String)} {url : String}
    {e : PyErr} (sel : List String) (hurl : url ∈ sel) (hf : f url = .error e) :
    ("Falha ao processar " ++ url ++ ": " ++ e.msg) ∈ failLog f sel := by
  refine List.mem_filterMap.mpr ⟨url, hurl, ?_⟩
  rw [hf]

theorem okMenu_length (f : String → Except PyErr (Json × List String)) :
    ∀ sel : List String,
    (okMenu f sel).length = (sel.filter fun u => (f u).isOk).length := by
  intro sel
  induction sel with
  | nil => rfl
  | cons url rest ih =>
    simp only [okMenu, List.filterMap_cons, List.filter_cons] at *
    cases hf : f url with
    | error e => simp [hf, Except.isOk, Except.toBool, ih]
    | ok p => simp [hf, Except.isOk, Except.toBool, ih]

/-- C4: `build_menu` raises the insufficient-recipes error exactly when
fewer than five distinct candidate URLs are discovered; with five or
more it selects exactly five distinct URLs from the candidates (the
selection is without replacement; its distribution is that of the
library's `random.sample`, modelled here by the arbitrary draw oracle
`picks`). -/
theorem C4_build_menu_sampling (picks : List Nat) (hrefs : List String)
    (results : String → Except PyErr (Json × Json)) :
    ((∃ m, build_menu picks hrefs results = .error (.runtimeError m)) ↔
      (get_recipe_urls hrefs).length < 5)
    ∧ (5 ≤ (get_recipe_urls hrefs).length →
        (sampleWithout picks (get_recipe_urls hrefs) 5).length = 5
        ∧ (sampleWithout picks (get_recipe_urls hrefs) 5).Nodup
        ∧ ∀ u ∈ sampleWithout picks (get_recipe_urls hrefs) 5,
            u ∈ get_recipe_urls hrefs) := by
  constructor
  · constructor
    · rintro ⟨m, hm⟩
      by_contra hlen
      simp only [build_menu, build_menu_full] at hm
      rw [if_neg hlen] at hm
      cases hr : recipeLoop results (sampleWithout picks (get_recipe_urls hrefs) 5)
          [] [] [] with
      | error e =>
        simp only [hr, Except.error.injEq] at hm
        obtain ⟨m', hm'⟩ := recipeLoop_error_shape results _ _ _ _ _ hr
        rw [hm'] at hm
        cases hm
      | ok t =>
        obtain ⟨menu, acc, log⟩ := t
        simp only [hr] at hm
        cases hu : unique_ingredients acc with
        | error e =>
          simp only [hu, Except.error.injEq] at hm
          obtain ⟨m', hm'⟩ := unique_ingredients_error_shape acc e hu
          rw [hm'] at hm
          cases hm
        | ok shopping =>
          simp only [hu] at hm
          exact Except.noConfusion hm
    · intro hlen
      exact ⟨insufficientMsg, by simp [build_menu, build_menu_full, hlen]⟩
  · intro h5
    exact ⟨sampleWithout_length 5 picks _ h5,
      sampleWithout_nodup 5 picks _ (nodup_dedupFirst _ _),
      fun u hu => sampleWithout_subset 5 picks _ u hu⟩

/-- Witness for C4: with a single candidate URL the insufficient-recipes
error is raised, and with five candidates the selection has exactly five
distinct elements. -/
theorem C4_build_menu_sampling_witness :
    (∃ m, build_menu [0] ["/receita/a"] (fun _ => .error (.fetchError "x")) =
      .error (.runtimeError m))
    ∧ (sampleWithout [0, 0, 0, 0, 0]
        (get_recipe_urls ["/receita/a", "/receita/b", "/receita/c", "/receita/d",
          "/receita/e"]) 5).length = 5 :=
  ⟨(C4_build_menu_sampling [0] ["/receita/a"] (fun _ => .error (.fetchError "x"))).1.mpr
      (by decide),
    ((C4_build_menu_sampling [0, 0, 0, 0, 0]
      ["/receita/a", "/receita/b", "/receita/c", "/receita/d", "/receita/e"]
      (fun _ => .error (.fetchError "x"))).2 (by decide)).1⟩

/-- Counterexample for C2: the code stores `item.strip()` as the kept
value, so the first-seen original spacing is NOT preserved — a recipe
whose only ingredient is `" Sal "` yields the shopping list `["Sal"]`,
not `[" Sal "]`. -/
theorem C2_counterexample :
    (build_menu [0, 0, 0, 0, 0]
        ["/receita/a", "/receita/b", "/receita/c", "/receita/d", "/receita/e"]
        (mkResults fun u =>
          if u = "https://www.panelinha.com.br/receita/a"
          then .ok (.str "R", [" Sal "]) else .ok (.str "R", []))).map
      (fun p => p.2) = .ok ["Sal"]
    ∧ ("Sal" : String) ≠ " Sal " := ⟨rfl, by decide⟩

/-- C2 (amended): `build_menu`'s shopping list equals the concatenation
of the selected recipes' ingredient lists, deduplicated by
lowercase-trimmed key keeping the first-seen casing of the trimmed item
(surrounding whitespace is stripped, not preserved), then sorted
case-insensitively by the lowercase projection; no two output entries
are equal when lowercased, and the ingredients
`["Tomate","tomate","Sal"]` produce `["Sal","Tomate"]`. -/
theorem C2_shopping_list_amended (picks : List Nat) (hrefs : List String)
    (f : String → Except PyErr (Json × List String))
    (h5 : 5 ≤ (get_recipe_urls hrefs).length) :
    build_menu picks hrefs (mkResults f) =
      .ok (okMenu f (sampleWithout picks (get_recipe_urls hrefs) 5),
        specShopping (allIngs f (sampleWithout picks (get_recipe_urls hrefs) 5)))
    ∧ (specShopping (allIngs f (sampleWithout picks
        (get_recipe_urls hrefs) 5))).Pairwise (fun a b => pyLower a ≠ pyLower b)
    ∧ unique_ingredients [.str "Tomate", .str "tomate", .str "Sal"] =
        .ok ["Sal", "Tomate"] := by
  refine ⟨?_, specShopping_pairwise _, rfl⟩
  rw [build_menu, build_menu_full_mk picks hrefs f h5]

/-- Witness for C2 (amended): a concrete five-URL scenario where two
recipes share the ingredient "tomate" with different casing. -/
theorem C2_shopping_list_amended_witness :
    build_menu [0, 0, 0, 0, 0]
      ["/receita/a", "/receita/b", "/receita/c", "/receita/d", "/receita/e"]
      (mkResults fun u =>
        if u = "https://www.panelinha.com.br/receita/a"
        then .ok (.str "R1", ["Tomate", "Sal"]) else .ok (.str "R2", ["tomate"])) =
      .ok (okMenu
          (fun u => if u = "https://www.panelinha.com.br/receita/a"
            then .ok (.str "R1", ["Tomate", "Sal"]) else .ok (.str "R2", ["tomate"]))
          (sampleWithout [0, 0, 0, 0, 0] (get_recipe_urls
            ["/receita/a", "/receita/b", "/receita/c", "/receita/d", "/receita/e"]) 5),
        specShopping (allIngs
          (fun u => if u = "https://www.panelinha.com.br/receita/a"
            then .ok (.str "R1", ["Tomate", "Sal"]) else .ok (.str "R2", ["tomate"]))
          (sampleWithout [0, 0, 0, 0, 0] (get_recipe_urls
            ["/receita/a", "/receita/b", "/receita/c", "/receita/d", "/receita/e"]) 5))) :=
  (C2_shopping_list_amended [0, 0, 0, 0, 0]
    ["/receita/a", "/receita/b", "/receita/c", "/receita/d", "/receita/e"]
    (fun u => if u = "https://www.panelinha.com.br/receita/a"
      then .ok (.str "R1", ["Tomate", "Sal"]) else .ok (.str "R2", ["tomate"]))
    (by decide)).1

/-- C5: if fetching-or-parsing raises for a selected URL, `build_menu`
does not raise: the run returns normally with that URL logged and
excluded from the menu, none of its ingredients in the shopping list,
the remaining selected URLs still processed, and the menu holding
exactly one entry per successfully parsed selected URL (possibly fewer
than five; no re-sampling). -/
theorem C5_build_menu_skips_failures (picks : List Nat) (hrefs : List String)
    (f : String → Except PyErr (Json × List String))
    (h5 : 5 ≤ (get_recipe_urls hrefs).length) :
    build_menu_full picks hrefs (mkResults f) =
      .ok (okMenu f (sampleWithout picks (get_recipe_urls hrefs) 5),
        specShopping (allIngs f (sampleWithout picks (get_recipe_urls hrefs) 5)),
        failLog f (sampleWithout picks (get_recipe_urls hrefs) 5))
    ∧ (∀ url ∈ sampleWithout picks (get_recipe_urls hrefs) 5, ∀ e, f url = .error e →
        (∀ nm, (nm, url) ∉ okMenu f (sampleWithout picks (get_recipe_urls hrefs) 5))
        ∧ ("Falha ao processar " ++ url ++ ": " ++ e.msg) ∈
            failLog f (sampleWithout picks (get_recipe_urls hrefs) 5))
    ∧ (okMenu f (sampleWithout picks (get_recipe_urls hrefs) 5)).length =
        ((sampleWithout picks (get_recipe_urls hrefs) 5).filter
          fun u => (f u).isOk).length := by
  refine ⟨build_menu_full_mk picks hrefs f h5, ?_, okMenu_length f _⟩
  intro url hurl e he
  constructor
  · intro nm hmem
    obtain ⟨p, hp⟩ := mem_okMenu _ hmem
    rw [he] at hp
    cases hp
  · exact mem_failLog _ hurl he

/-- Witness for C5: five selected URLs of which one fails to fetch; the
run returns normally, the failing URL is logged and excluded, and the
menu has four entries. -/
theorem C5_build_menu_skips_failures_witness :
    (∀ nm, (nm, "https://www.panelinha.com.br/receita/b") ∉ okMenu
      (fun u => if u = "https://www.panelinha.com.br/receita/b"
        then .error (.fetchError "404") else .ok (.str "R", ["x"]))
      (sampleWithout [0, 0, 0, 0, 0] (get_recipe_urls
        ["/receita/a", "/receita/b", "/receita/c", "/receita/d", "/receita/e"]) 5))
    ∧ ("Falha ao processar https://www.panelinha.com.br/receita/b: 404" ∈ failLog
        (fun u => if u = "https://www.panelinha.com.br/receita/b"
          then .error (.fetchError "404") else .ok (.str "R", ["x"]))
        (sampleWithout [0, 0, 0, 0, 0] (get_recipe_urls
          ["/receita/a", "/receita/b", "/receita/c", "/receita/d", "/receita/e"]) 5))
    ∧ (okMenu
        (fun u => if u = "https://www.panelinha.com.br/receita/b"
          then .error (.fetchError "404") else .ok (.str "R", ["x"]))
        (sampleWithout [0, 0, 0, 0, 0] (get_recipe_urls
          ["/receita/a", "/receita/b", "/receita/c", "/receita/d", "/receita/e"]) 5)).length
        = 4 := by
  refine ⟨?_, ?_, by decide⟩
  · exact fun nm => (((C5_build_menu_skips_failures [0, 0, 0, 0, 0]
      ["/receita/a", "/receita/b", "/receita/c", "/receita/d", "/receita/e"]
      (fun u => if u = "https://www.panelinha.com.br/receita/b"
        then .error (.fetchError "404") else .ok (.str "R", ["x"]))
      (by decide)).2.1 "https://www.panelinha.com.br/receita/b" (by decide)
      (.fetchError "404") rfl).1 nm)
  · exact ((C5_build_menu_skips_failures [0, 0, 0, 0, 0]
      ["/receita/a", "/receita/b", "/receita/c", "/receita/d", "/receita/e"]
      (fun u => if u = "https://www.panelinha.com.br/receita/b"
        then .error (.fetchError "404") else .ok (.str "R", ["x"]))
      (by decide)).2.1 "https://www.panelinha.com.br/receita/b" (by decide)
      (.fetchError "404") rfl).2

theorem enumFrom_menuLines :
    ∀ (menu : List (String × String)) (i : Nat),
    (List.enumFrom i menu).map (fun e =>
      dias_semana.getD (e.1 % dias_semana.length) "" ++ ": " ++ e.2.1 ++ " — " ++ e.2.2) =
      specMenuLines i menu := by
  intro menu
  induction menu with
  | nil => intro i; rfl
  | cons e rest ih =>
    intro i
    simp only [List.enumFrom, List.map_cons, specMenuLines]
    rw [ih]
    rfl

/-- C7: `compose_email` is a pure total function equal to the spec's
rendering — it maps menu entries in order to weekday labels by index
modulo 5, one weekday line per entry with the recipe name and URL
(missing entries produce no line), followed by a shopping-list section
containing each input item exactly once, in input order, prefixed by a
bullet marker; with 3 entries the output holds exactly the Monday,
Tuesday and Wednesday lines. -/
theorem C7_compose_email_contract :
    (∀ (menu : List (String × String)) (ingredients : List String),
      compose_email menu ingredients = compose_spec menu ingredients)
    ∧ compose_email [("A", "uA"), ("B", "uB"), ("C", "uC")] ["x", "y"] =
      "Olá! Aqui está o cardápio semanal sugerido:\n\nSegunda-feira: A — uA\nTerça-feira: B — uB\nQuarta-feira: C — uC\n\nLista de compras:\n- x\n- y" := by
  constructor
  · intro menu ingredients
    simp only [compose_email, compose_spec]
    rw [show menu.enum = List.enumFrom 0 menu from rfl, enumFrom_menuLines]
  · rfl

/-- C8: `send_email` raises the configuration error, before performing
any SMTP action, exactly when one of the three environment values
(sender identity, sender credential, recipient address) is absent or
empty; when all three are present and non-empty no configuration error
is raised (its only error is the configuration one, and an `.error`
result carries no network events). -/
theorem C8_send_email_config (env : String → Option String) (subject body : String) :
    (send_email env subject body = .error (.runtimeError configMsg) ↔
      (pyFalsyStr (env "MEAL_PLANNER_EMAIL") = true
        ∨ pyFalsyStr (env "MEAL_PLANNER_PASS") = true
        ∨ pyFalsyStr (env "RECIPIENT_EMAIL") = true))
    ∧ (∀ e, send_email env subject body = .error e → e = .runtimeError configMsg) := by
  cases hc : (pyFalsyStr (env "MEAL_PLANNER_EMAIL")
      || pyFalsyStr (env "MEAL_PLANNER_PASS")
      || pyFalsyStr (env "RECIPIENT_EMAIL")) with
  | true =>
    have hs : send_email env subject body = .error (.runtimeError configMsg) := by
      simp only [send_email]
      rw [if_pos hc]
    refine ⟨⟨fun _ => ?_, fun _ => hs⟩, fun e he => ?_⟩
    · have hd := hc
      simp only [Bool.or_eq_true] at hd
      tauto
    · rw [hs] at he
      exact (Except.error.inj he).symm
  | false =>
    have hs : send_email env subject body =
        .ok [.connectSSL "smtp.gmail.com" 465,
          .login ((env "MEAL_PLANNER_EMAIL").getD "") ((env "MEAL_PLANNER_PASS").getD ""),
          .sendmail ((env "MEAL_PLANNER_EMAIL").getD "") ((env "RECIPIENT_EMAIL").getD "")
            subject body] := by
      simp only [send_email]
      rw [if_neg (by rw [hc]; exact Bool.false_ne_true)]
    refine ⟨⟨fun h => ?_, fun hd => ?_⟩, fun e he => ?_⟩
    · rw [hs] at h
      cases h
    · exfalso
      rcases hd with hd | hd | hd <;> rw [hd] at hc <;> simp at hc
    · rw [hs] at he
      cases he

/-- Witness for C8: an empty environment raises the configuration error;
a fully populated environment sends (no configuration error). -/
theorem C8_send_email_config_witness :
    send_email (fun _ => none) "s" "b" = .error (.runtimeError configMsg)
    ∧ ∃ evs, send_email (fun v => some v) "s" "b" = .ok evs :=
  ⟨(C8_send_email_config (fun _ => none) "s" "b").1.mpr (Or.inl rfl),
    ⟨_, rfl⟩⟩

/-- Counterexample for C9: one scheduled firing where `build_menu` finds
too few recipes terminates the whole loop — `schedule_loop` ends in the
insufficient-recipes error (the unhandled exception crashes the
process), and a later firing that would have succeeded (shown alone in
the second conjunct) never runs; nothing catches or logs the error. -/
theorem C9_counterexample :
    schedule_loop
        [some ⟨[0], ["/receita/a"], (fun _ => .error (.fetchError "x")), (fun _ => some "v")⟩,
          some ⟨[0, 0, 0, 0, 0],
            ["/receita/a", "/receita/b", "/receita/c", "/receita/d", "/receita/e"],
            mkResults (fun _ => .ok (.str "R", ["x"])), (fun _ => some "v")⟩] =
      .error (.runtimeError insufficientMsg)
    ∧ schedule_loop
        [some ⟨[0, 0, 0, 0, 0],
          ["/receita/a", "/receita/b", "/receita/c", "/receita/d", "/receita/e"],
          mkResults (fun _ => .ok (.str "R", ["x"])), (fun _ => some "v")⟩] =
      .ok ["Construindo cardápio...", "Cardápio enviado com sucesso!"] :=
  ⟨rfl, rfl⟩

/-- C9 (amended): an `InsufficientRecipesError` raised by the menu
builder during a scheduled run propagates out of `job` (nothing inside
`job` catches it) and out of the scheduler loop (nothing there catches
it either), terminating the long-running process — it is not logged,
and no later trigger runs. -/
theorem C9_scheduler_crash_amended :
    (∀ (inp : JobEnv) (e : PyErr),
      build_menu_full inp.picks inp.listingHrefs inp.results = .error e →
      job inp = .error e)
    ∧ (∀ (inp : JobEnv) (rest : List (Option JobEnv)) (e : PyErr),
      job inp = .error e → schedule_loop (some inp :: rest) = .error e) := by
  constructor
  · intro inp e h
    simp [job, h]
  · intro inp rest e h
    simp [schedule_loop, h]

/-- Witness for C9 (amended): a firing with a single candidate URL makes
`job` fail with the insufficient-recipes error, and the loop run
containing that firing ends in the same error. -/
theorem C9_scheduler_crash_amended_witness :
    job ⟨[0], ["/receita/a"], (fun _ => .error (.fetchError "x")), (fun _ => some "v")⟩ =
      .error (.runtimeError insufficientMsg)
    ∧ schedule_loop
        [some ⟨[0], ["/receita/a"], (fun _ => .error (.fetchError "x")), (fun _ => some "v")⟩,
          none] =
      .error (.runtimeError insufficientMsg) :=
  ⟨C9_scheduler_crash_amended.1
      ⟨[0], ["/receita/a"], (fun _ => .error (.fetchError "x")), (fun _ => some "v")⟩
      (.runtimeError insufficientMsg) rfl,
    C9_scheduler_crash_amended.2
      ⟨[0], ["/receita/a"], (fun _ => .error (.fetchError "x")), (fun _ => some "v")⟩
      [none] (.runtimeError insufficientMsg)
      (C9_scheduler_crash_amended.1
        ⟨[0], ["/receita/a"], (fun _ => .error (.fetchError "x")), (fun _ => some "v")⟩
        (.runtimeError insufficientMsg) rfl)⟩

end MealPlanner
